import Mathlib

/-!
Verification of the Pro Clubs Championship backend (server.js).

The server is an Express application with JWT-authenticated CRUD routes for
clubs, players and standings, plus user registration/login backed by bcrypt.
Strings manipulated character-by-character (headers, tokens, passwords) are
modelled as `List Char`; MongoDB collections as Lean lists of records with a
`Nat` id standing for the ObjectId; the jsonwebtoken and bcryptjs libraries
as explicit injective encodings with the same observable behaviour
(signature check, expiry check, salted one-way hash, compare).
-/

deriving instance DecidableEq for Except

namespace ProClubs

/-- Character strings handled at character level (headers, tokens, emails,
passwords): a string is its list of characters. -/
abbrev Str := List Char

/-- Little-endian binary numeral over characters (fuel-based structural
recursion; `fuel ≥ n` always suffices since the argument at least
halves). -/
def binOfNatAux : Nat → Nat → Str
  | _, 0 => []
  | 0, _ + 1 => []
  | fuel + 1, n + 1 =>
    (if (n + 1) % 2 = 1 then '1' else '0') :: binOfNatAux fuel ((n + 1) / 2)

/-- Little-endian binary numeral over characters, used by the injective
encodings that model JWT payload serialisation and a bcrypt salt. -/
def binOfNat (n : Nat) : Str := binOfNatAux n n

/-- Parse a little-endian binary numeral; `none` on a non-digit. -/
def natOfBin : Str → Option Nat
  | [] => some 0
  | c :: cs =>
    match natOfBin cs with
    | none => none
    | some m =>
      if c = '1' then some (2 * m + 1)
      else if c = '0' then some (2 * m)
      else none

/-- Split a string at the first occurrence of `sep`: returns the part before
and the part after, or `none` when `sep` does not occur. -/
def takeUntil (sep : Char) : Str → Option (Str × Str)
  | [] => none
  | c :: cs =>
    if c = sep then some ([], cs)
    else
      match takeUntil sep cs with
      | none => none
      | some (a, b) => some (c :: a, b)

/-- JavaScript `String.prototype.split(sep)` for a one-character separator:
`"a b".split(' ') = ["a","b"]`, `"ab".split(' ') = ["ab"]`,
`" a".split(' ') = ["","a"]`. -/
def splitOnChar (sep : Char) : Str → List Str
  | [] => [[]]
  | c :: cs =>
    if c = sep then [] :: splitOnChar sep cs
    else
      match splitOnChar sep cs with
      | [] => [[c]]
      | x :: xs => (c :: x) :: xs

theorem natOfBin_binOfNatAux (fuel : Nat) :
    ∀ n, n ≤ fuel → natOfBin (binOfNatAux fuel n) = some n := by
  induction fuel with
  | zero =>
    intro n hn
    have h0 : n = 0 := Nat.le_zero.mp hn
    subst h0
    rfl
  | succ f ih =>
    intro n hn
    cases n with
    | zero => rfl
    | succ m =>
      have hhalf : (m + 1) / 2 ≤ f := by omega
      have ih2 := ih ((m + 1) / 2) hhalf
      have hdm := Nat.div_add_mod (m + 1) 2
      rcases Nat.mod_two_eq_zero_or_one (m + 1) with hm | hm
      · simp [binOfNatAux, hm, natOfBin, ih2]
        omega
      · simp [binOfNatAux, hm, natOfBin, ih2]
        omega

theorem natOfBin_binOfNat (n : Nat) : natOfBin (binOfNat n) = some n :=
  natOfBin_binOfNatAux n n (Nat.le_refl n)

theorem mem_binOfNatAux (fuel : Nat) :
    ∀ n c, c ∈ binOfNatAux fuel n → c = '0' ∨ c = '1' := by
  induction fuel with
  | zero =>
    intro n c hc
    cases n <;> simp [binOfNatAux] at hc
  | succ f ih =>
    intro n c hc
    cases n with
    | zero => simp [binOfNatAux] at hc
    | succ m =>
      rw [binOfNatAux] at hc
      rcases List.mem_cons.mp hc with hc | hc
      · subst hc
        by_cases hm : (m + 1) % 2 = 1 <;> simp [hm]
      · exact ih ((m + 1) / 2) c hc

theorem mem_binOfNat (n : Nat) (c : Char) (hc : c ∈ binOfNat n) :
    c = '0' ∨ c = '1' :=
  mem_binOfNatAux n n c hc

theorem takeUntil_append (sep : Char) (a b : Str) (ha : sep ∉ a) :
    takeUntil sep (a ++ sep :: b) = some (a, b) := by
  induction a with
  | nil => simp [takeUntil]
  | cons c cs ih =>
    have hc : ¬c = sep := fun h => ha (h ▸ List.mem_cons_self c cs)
    have hcs : sep ∉ cs := fun h => ha (List.mem_cons_of_mem c h)
    simp [takeUntil, hc, ih hcs]

theorem splitOnChar_not_mem (sep : Char) (s : Str) (h : sep ∉ s) :
    splitOnChar sep s = [s] := by
  induction s with
  | nil => simp [splitOnChar]
  | cons c cs ih =>
    have hc : ¬c = sep := fun hh => h (hh ▸ List.mem_cons_self c cs)
    have hcs : sep ∉ cs := fun hh => h (List.mem_cons_of_mem c hh)
    simp [splitOnChar, hc, ih hcs]

theorem splitOnChar_append (sep : Char) (a b : Str) (ha : sep ∉ a) :
    splitOnChar sep (a ++ sep :: b) = a :: splitOnChar sep b := by
  induction a with
  | nil => simp [splitOnChar]
  | cons c cs ih =>
    have hc : ¬c = sep := fun h => ha (h ▸ List.mem_cons_self c cs)
    have hcs : sep ∉ cs := fun h => ha (List.mem_cons_of_mem c h)
    rw [List.cons_append, splitOnChar]
    simp only [hc, if_false, ih hcs]

/-! ### Model of the jsonwebtoken library (`jwt.sign`, `jwt.verify`)

A token is a character string carrying the signed claims
`{email, id, iat, exp}` (as produced by
`jwt.sign({email, id}, JWT_SECRET, {expiresIn: '1d'})`) followed by a
signature over the payload keyed by the server secret. The concrete wire
format is an injective newline-separated encoding standing in for
base64url JWT serialisation. -/

/-- The claims object embedded in a token: `jwt.sign({email: user.email,
id: user._id}, ...)` plus the `iat`/`exp` timestamps (seconds) that
jsonwebtoken adds. -/
structure TokenClaims where
  email : Str
  userId : Nat
  iat : Nat
  exp : Nat
deriving DecidableEq, Repr

/-- Serialised claims payload (models the base64url-encoded JWT payload). -/
def encPayload (c : TokenClaims) : Str :=
  c.email ++ '\n' :: binOfNat c.userId ++ '\n' :: binOfNat c.iat
    ++ '\n' :: binOfNat c.exp

/-- Signature over the payload keyed by the secret (models HMAC-SHA256). -/
def sigOf (secret : Str) (c : TokenClaims) : Str :=
  '#' :: secret ++ '#' :: encPayload c

/-- A signed token as put on the wire by `jwt.sign`. -/
def encodeJwt (secret : Str) (c : TokenClaims) : Str :=
  encPayload c ++ '\n' :: sigOf secret c

/-- Structural decoding of a token string into claims and carried signature;
`none` on a malformed token. -/
def decodeJwt (s : Str) : Option (TokenClaims × Str) :=
  match takeUntil '\n' s with
  | none => none
  | some (e, r1) =>
    match takeUntil '\n' r1 with
    | none => none
    | some (uid, r2) =>
      match takeUntil '\n' r2 with
      | none => none
      | some (ia, r3) =>
        match takeUntil '\n' r3 with
        | none => none
        | some (ex, sg) =>
          match natOfBin uid, natOfBin ia, natOfBin ex with
          | some u, some i, some x => some (⟨e, u, i, x⟩, sg)
          | _, _, _ => none

/-- The failure cases of `jwt.verify`: a structurally malformed token, a
signature that does not match the secret, an expired token. In
`authenticateToken` every one of them lands in the same `err` branch. -/
inductive VerifyErr
  | malformed
  | badSignature
  | expired
deriving DecidableEq, Repr

/-- `jwt.verify(token, JWT_SECRET, cb)`: decode, check the signature
against the secret, check expiry (`TokenExpiredError` when
`now >= exp`), and return the decoded claims on success. -/
def jwtVerify (secret : Str) (now : Nat) (t : Str) : Except VerifyErr TokenClaims :=
  match decodeJwt t with
  | none => .error .malformed
  | some (c, sg) =>
    if sg = sigOf secret c then
      if now < c.exp then .ok c else .error .expired
    else .error .badSignature

/-- `jwt.sign({email, id}, JWT_SECRET, {expiresIn: '1d'})` at time `now`:
expiry is 24 hours (86400 seconds) after issuance. -/
def jwtSign (secret : Str) (email : Str) (userId : Nat) (now : Nat) : Str :=
  encodeJwt secret ⟨email, userId, now, now + 86400⟩

theorem decodeJwt_encodeJwt (secret : Str) (c : TokenClaims)
    (h : '\n' ∉ c.email) :
    decodeJwt (encodeJwt secret c) = some (c, sigOf secret c) := by
  have hu : '\n' ∉ binOfNat c.userId := fun hm => by
    rcases mem_binOfNat _ _ hm with h0 | h0 <;> simp at h0
  have hi : '\n' ∉ binOfNat c.iat := fun hm => by
    rcases mem_binOfNat _ _ hm with h0 | h0 <;> simp at h0
  have hx : '\n' ∉ binOfNat c.exp := fun hm => by
    rcases mem_binOfNat _ _ hm with h0 | h0 <;> simp at h0
  have h1 := takeUntil_append '\n' c.email
    (binOfNat c.userId ++ '\n' :: (binOfNat c.iat
      ++ '\n' :: (binOfNat c.exp ++ '\n' :: sigOf secret c))) h
  have h2 := takeUntil_append '\n' (binOfNat c.userId)
    (binOfNat c.iat ++ '\n' :: (binOfNat c.exp ++ '\n' :: sigOf secret c)) hu
  have h3 := takeUntil_append '\n' (binOfNat c.iat)
    (binOfNat c.exp ++ '\n' :: sigOf secret c) hi
  have h4 := takeUntil_append '\n' (binOfNat c.exp) (sigOf secret c) hx
  rw [encodeJwt, encPayload]
  rw [show
      (c.email ++ '\n' :: binOfNat c.userId ++ '\n' :: binOfNat c.iat
          ++ '\n' :: binOfNat c.exp) ++ '\n' :: sigOf secret c
        = c.email ++ '\n' :: (binOfNat c.userId ++ '\n' :: (binOfNat c.iat
          ++ '\n' :: (binOfNat c.exp ++ '\n' :: sigOf secret c))) by
    simp]
  simp only [decodeJwt, h1, h2, h3, h4, natOfBin_binOfNat]

/-- `jwt.verify` accepts a token signed with the same secret exactly while
`now < exp`, and reports it expired from `exp` on. -/
theorem jwtVerify_encodeJwt (secret : Str) (c : TokenClaims) (now : Nat)
    (h : '\n' ∉ c.email) :
    jwtVerify secret now (encodeJwt secret c)
      = if now < c.exp then .ok c else .error .expired := by
  rw [jwtVerify, decodeJwt_encodeJwt secret c h]
  simp

/-! ### Model of the bcryptjs library (`bcrypt.hash`, `bcrypt.compare`)

`bcrypt.hash(password, 10)` produces a salted one-way digest; the digest
records the salt and determines the password only through the one-way
function. The model keeps the observable algebra — `compare(pw, hash(pw))`
is true, `compare(pw', hash(pw))` is false for `pw' ≠ pw`, and the digest
is never the plaintext — via an injective tagged encoding. -/

/-- Digest produced by `bcrypt.hash(pw, 10)` with the randomly drawn salt
made an explicit parameter. -/
def bcryptHash (salt : Nat) (pw : Str) : Str :=
  '$' :: binOfNat salt ++ '$' :: pw

/-- `bcrypt.compare(pw, digest)`: re-derives the digest from `pw` and the
salt recorded in `digest` and compares. -/
def bcryptCompare (pw digest : Str) : Bool :=
  match digest with
  | [] => false
  | c :: rest =>
    if c = '$' then
      match takeUntil '$' rest with
      | some (_, stored) => stored == pw
      | none => false
    else false

theorem bcryptCompare_hash (salt : Nat) (pw : Str) :
    bcryptCompare pw (bcryptHash salt pw) = true := by
  have hs : '$' ∉ binOfNat salt := fun hm => by
    rcases mem_binOfNat _ _ hm with h0 | h0 <;> simp at h0
  have h1 := takeUntil_append '$' (binOfNat salt) pw hs
  rw [bcryptHash]
  simp [bcryptCompare, h1]

/-- The stored digest is never the plaintext password. -/
theorem bcryptHash_ne_pw (salt : Nat) (pw : Str) : bcryptHash salt pw ≠ pw := by
  intro h
  have hl := congrArg List.length h
  simp [bcryptHash] at hl
  omega

/-! ### Data model: the four Mongoose collections

A document's `_id` is a `Nat`; schema fields are optional (a document may
lack any field that the creating payload did not supply), mirroring the
non-required Mongoose schema fields. `stats: Object` is an open key-value
mapping. -/

structure ClubRec where
  id : Nat
  name : Option String
  logo : Option String
  description : Option String
  stats : Option (List (String × String))
deriving DecidableEq, Repr

structure PlayerRec where
  id : Nat
  name : Option String
  club : Option String
  stats : Option (List (String × String))
deriving DecidableEq, Repr

structure StandingRec where
  id : Nat
  club : Option String
  points : Option Int
  played : Option Int
  won : Option Int
  drawn : Option Int
  lost : Option Int
  gf : Option Int
  ga : Option Int
  gd : Option Int
deriving DecidableEq, Repr

structure UserRec where
  id : Nat
  email : Str
  password : Str
deriving DecidableEq, Repr

/-- A JSON request body for a club route: each field is present or absent. -/
structure ClubPayload where
  name : Option String
  logo : Option String
  description : Option String
  stats : Option (List (String × String))
deriving DecidableEq, Repr

structure PlayerPayload where
  name : Option String
  club : Option String
  stats : Option (List (String × String))
deriving DecidableEq, Repr

structure StandingPayload where
  club : Option String
  points : Option Int
  played : Option Int
  won : Option Int
  drawn : Option Int
  lost : Option Int
  gf : Option Int
  ga : Option Int
  gd : Option Int
deriving DecidableEq, Repr

/-- The whole MongoDB database. -/
structure DB where
  clubs : List ClubRec
  players : List PlayerRec
  standings : List StandingRec
  users : List UserRec
deriving DecidableEq, Repr

/-- `$set` of one field: a field present in the payload replaces the stored
value, an absent field keeps it. -/
def setField {α : Type} (pv old : Option α) : Option α :=
  match pv with
  | some v => some v
  | none => old

/-- `findByIdAndUpdate(id, body)` document update: fields present in the
body are set, the rest keep their stored value, `_id` is untouched. -/
def applyClubUpdate (p : ClubPayload) (c : ClubRec) : ClubRec :=
  { id := c.id
    name := setField p.name c.name
    logo := setField p.logo c.logo
    description := setField p.description c.description
    stats := setField p.stats c.stats }

def applyPlayerUpdate (p : PlayerPayload) (c : PlayerRec) : PlayerRec :=
  { id := c.id
    name := setField p.name c.name
    club := setField p.club c.club
    stats := setField p.stats c.stats }

def applyStandingUpdate (p : StandingPayload) (c : StandingRec) : StandingRec :=
  { id := c.id
    club := setField p.club c.club
    points := setField p.points c.points
    played := setField p.played c.played
    won := setField p.won c.won
    drawn := setField p.drawn c.drawn
    lost := setField p.lost c.lost
    gf := setField p.gf c.gf
    ga := setField p.ga c.ga
    gd := setField p.gd c.gd }

/-- `findByIdAndUpdate` over a collection: update the document whose `_id`
matches (`_id` is unique, so the first match is the match) and return the
updated document (`{new: true}`), or `none` when no document matches. -/
def updateById {α : Type} (getId : α → Nat) (upd : α → α) (id : Nat) :
    List α → List α × Option α
  | [] => ([], none)
  | c :: cs =>
    if getId c = id then (upd c :: cs, some (upd c))
    else
      let r := updateById getId upd id cs
      (c :: r.1, r.2)

/-- `findByIdAndDelete` over a collection: remove the document whose `_id`
matches; removing nothing when no document matches. -/
def deleteById {α : Type} (getId : α → Nat) (id : Nat) : List α → List α
  | [] => []
  | c :: cs => if getId c = id then cs else c :: deleteById getId id cs

/-- New document built by `new Club(req.body)` with the ObjectId the driver
assigns passed explicitly. -/
def newClub (freshId : Nat) (p : ClubPayload) : ClubRec :=
  ⟨freshId, p.name, p.logo, p.description, p.stats⟩

def newPlayer (freshId : Nat) (p : PlayerPayload) : PlayerRec :=
  ⟨freshId, p.name, p.club, p.stats⟩

def newStanding (freshId : Nat) (p : StandingPayload) : StandingRec :=
  ⟨freshId, p.club, p.points, p.played, p.won, p.drawn, p.lost, p.gf, p.ga, p.gd⟩

/-! ### GET routes -/

/-- Row shape sent by `GET /api/standings` (the frontend display format). -/
structure DisplayRow where
  club : Option String
  logo : String
  p : Option Int
  w : Option Int
  d : Option Int
  l : Option Int
  gf : Option Int
  ga : Option Int
  gd : Option Int
  pts : Option Int
deriving DecidableEq, Repr

/-- The per-row mapping in `GET /api/standings`: the schema has no `logo`
field, so `row.logo` is undefined and `row.logo || ''` is always `''`. -/
def mapStandingRow (r : StandingRec) : DisplayRow :=
  { club := r.club
    logo := ""
    p := r.played
    w := r.won
    d := r.drawn
    l := r.lost
    gf := r.gf
    ga := r.ga
    gd := r.gd
    pts := r.points }

/-- Order on optional point counts with a missing value smallest, as
MongoDB sorts documents missing the sort key first ascending / last
descending. -/
def ptsOptLe (a b : Option Int) : Bool :=
  match a, b with
  | none, _ => true
  | some _, none => false
  | some x, some y => x ≤ y

/-- The order realising `.sort({points: -1})`: `a` before `b` when `a` has
at least as many points. -/
def standingGe (a b : StandingRec) : Prop := ptsOptLe b.points a.points = true

instance : DecidableRel standingGe := fun a b =>
  decEq (ptsOptLe b.points a.points) true

/-- `GET /api/clubs` (no auth middleware: the header is ignored). -/
def getClubs (_authHeader : Option Str) (db : DB) : Nat × List ClubRec :=
  (200, db.clubs)

/-- `GET /api/players` (no auth middleware: the header is ignored). -/
def getPlayers (_authHeader : Option Str) (db : DB) : Nat × List PlayerRec :=
  (200, db.players)

/-- `GET /api/standings` (no auth middleware): `find().sort({points: -1})`
then the display mapping. -/
def getStandings (_authHeader : Option Str) (db : DB) : Nat × List DisplayRow :=
  (200, (db.standings.insertionSort standingGe).map mapStandingRow)

/-! ### Authentication middleware -/

/-- Outcome of the `authenticateToken` middleware: either the request is
terminated with a status (`res.sendStatus`), or `req.user` is set and the
handler runs. -/
inductive AuthResult
  | fail (status : Nat)
  | ok (user : TokenClaims)
deriving DecidableEq, Repr

/-- `authenticateToken(req, res, next)`:
`token = authHeader && authHeader.split(' ')[1]`; a missing or falsy token
gives 401, a token `jwt.verify` rejects gives 403, otherwise the claims
become `req.user`. -/
def authenticateToken (secret : Str) (now : Nat) (authHeader : Option Str) :
    AuthResult :=
  match authHeader with
  | none => .fail 401
  | some h =>
    match (splitOnChar ' ' h)[1]? with
    | none => .fail 401
    | some t =>
      if t = [] then .fail 401
      else
        match jwtVerify secret now t with
        | .error _ => .fail 403
        | .ok u => .ok u

/-! ### Mutating resource routes -/

/-- A JSON response body of a mutating route (`res.json` argument, or none
for `res.sendStatus` / `res.status(..).end()`). -/
inductive RespBody
  | emptyBody
  | clubBody (c : Option ClubRec)
  | playerBody (p : Option PlayerRec)
  | standingBody (s : Option StandingRec)
deriving DecidableEq, Repr

/-- The nine mutating resource routes with their parsed inputs: the request
body payload, the `:id` path parameter, and for creation the ObjectId the
driver will assign. -/
inductive MutRoute
  | postClubsR (p : ClubPayload) (freshId : Nat)
  | putClubsR (id : Nat) (p : ClubPayload)
  | deleteClubsR (id : Nat)
  | postPlayersR (p : PlayerPayload) (freshId : Nat)
  | putPlayersR (id : Nat) (p : PlayerPayload)
  | deletePlayersR (id : Nat)
  | postStandingsR (p : StandingPayload) (freshId : Nat)
  | putStandingsR (id : Nat) (p : StandingPayload)
  | deleteStandingsR (id : Nat)
deriving DecidableEq, Repr

/-- `POST /api/clubs` handler body: save the new document, `201` with it. -/
def postClubs (p : ClubPayload) (freshId : Nat) (db : DB) :
    Nat × RespBody × DB :=
  let club := newClub freshId p
  (201, .clubBody (some club), { db with clubs := db.clubs ++ [club] })

/-- `PUT /api/clubs/:id` handler body: `findByIdAndUpdate(id, body,
{new: true})`, `res.json` of the result (default status 200; `null` body
when no document matched). -/
def putClubs (id : Nat) (p : ClubPayload) (db : DB) : Nat × RespBody × DB :=
  let r := updateById ClubRec.id (applyClubUpdate p) id db.clubs
  (200, .clubBody r.2, { db with clubs := r.1 })

/-- `DELETE /api/clubs/:id` handler body: `findByIdAndDelete(id)` then
`res.status(204).end()` unconditionally. -/
def deleteClubs (id : Nat) (db : DB) : Nat × RespBody × DB :=
  (204, .emptyBody, { db with clubs := deleteById ClubRec.id id db.clubs })

def postPlayers (p : PlayerPayload) (freshId : Nat) (db : DB) :
    Nat × RespBody × DB :=
  let player := newPlayer freshId p
  (201, .playerBody (some player), { db with players := db.players ++ [player] })

def putPlayers (id : Nat) (p : PlayerPayload) (db : DB) : Nat × RespBody × DB :=
  let r := updateById PlayerRec.id (applyPlayerUpdate p) id db.players
  (200, .playerBody r.2, { db with players := r.1 })

def deletePlayers (id : Nat) (db : DB) : Nat × RespBody × DB :=
  (204, .emptyBody, { db with players := deleteById PlayerRec.id id db.players })

def postStandings (p : StandingPayload) (freshId : Nat) (db : DB) :
    Nat × RespBody × DB :=
  let standing := newStanding freshId p
  (201, .standingBody (some standing),
    { db with standings := db.standings ++ [standing] })

def putStandings (id : Nat) (p : StandingPayload) (db : DB) :
    Nat × RespBody × DB :=
  let r := updateById StandingRec.id (applyStandingUpdate p) id db.standings
  (200, .standingBody r.2, { db with standings := r.1 })

def deleteStandings (id : Nat) (db : DB) : Nat × RespBody × DB :=
  (204, .emptyBody,
    { db with standings := deleteById StandingRec.id id db.standings })

/-- Dispatch of a mutating route to its handler body. -/
def runMutRoute : MutRoute → DB → Nat × RespBody × DB
  | .postClubsR p fid, db => postClubs p fid db
  | .putClubsR id p, db => putClubs id p db
  | .deleteClubsR id, db => deleteClubs id db
  | .postPlayersR p fid, db => postPlayers p fid db
  | .putPlayersR id p, db => putPlayers id p db
  | .deletePlayersR id, db => deletePlayers id db
  | .postStandingsR p fid, db => postStandings p fid db
  | .putStandingsR id p, db => putStandings id p db
  | .deleteStandingsR id, db => deleteStandings id db

/-- Result of processing one HTTP request to a mutating route, with a trace
bit recording whether the request body was consumed (parsed). -/
structure PipeResult where
  status : Nat
  body : RespBody
  db : DB
  bodyConsumed : Bool
deriving DecidableEq, Repr

/-- Processing of one request to a mutating resource route, in the Express
middleware order of server.js: `app.use(express.json())` is registered
before every route, so the JSON body parser reads and parses the request
body first for every request; then the route-level `authenticateToken`
middleware runs; the resource handler runs only when authentication
succeeded, and a failed authentication terminates the request with the
store untouched. -/
def mutPipeline (secret : Str) (now : Nat) (authHeader : Option Str)
    (route : MutRoute) (db : DB) : PipeResult :=
  let bodyConsumed := true
  match authenticateToken secret now authHeader with
  | .fail s => ⟨s, .emptyBody, db, bodyConsumed⟩
  | .ok _ =>
    let r := runMutRoute route db
    ⟨r.1, r.2.1, r.2.2, bodyConsumed⟩

/-! ### Registration and login -/

/-- `POST /api/register`: `bcrypt.hash(password, 10)`, save the user
(no existing-email check anywhere), respond 201. The salt bcrypt draws and
the ObjectId the driver assigns are explicit parameters. -/
def registerUser (salt freshId : Nat) (email password : Str) (db : DB) :
    Nat × DB :=
  let user : UserRec := ⟨freshId, email, bcryptHash salt password⟩
  (201, { db with users := db.users ++ [user] })

/-- `POST /api/login`: `User.findOne({email})` (first stored match),
`bcrypt.compare`, then `jwt.sign({email, id}, JWT_SECRET,
{expiresIn: '1d'})`; 400 with no token on unknown email or wrong
password. -/
def loginUser (secret : Str) (now : Nat) (email password : Str) (db : DB) :
    Nat × Option Str :=
  match db.users.find? (fun u => u.email == email) with
  | none => (400, none)
  | some user =>
    if bcryptCompare password user.password then
      (200, some (jwtSign secret user.email user.id now))
    else (400, none)

/-! ### Helper lemmas about the store operations -/

theorem updateById_no_match {α : Type} (getId : α → Nat) (upd : α → α)
    (idv : Nat) (l : List α) (h : ∀ r ∈ l, getId r ≠ idv) :
    updateById getId upd idv l = (l, none) := by
  induction l with
  | nil => rfl
  | cons c cs ih =>
    have hc := h c (List.mem_cons_self c cs)
    have hcs : ∀ r ∈ cs, getId r ≠ idv :=
      fun r hr => h r (List.mem_cons_of_mem c hr)
    simp [updateById, hc, ih hcs]

theorem updateById_first_match {α : Type} (getId : α → Nat) (upd : α → α)
    (idv : Nat) (l : List α) (i : Nat) (hi : i < l.length)
    (hmatch : getId (l.get ⟨i, hi⟩) = idv)
    (hfirst : ∀ j (hj : j < i), getId (l.get ⟨j, Nat.lt_trans hj hi⟩) ≠ idv) :
    updateById getId upd idv l
      = (l.set i (upd (l.get ⟨i, hi⟩)), some (upd (l.get ⟨i, hi⟩))) := by
  induction l generalizing i with
  | nil => simp at hi
  | cons c cs ih =>
    cases i with
    | zero =>
      simp only [List.get] at hmatch
      simp [updateById, hmatch]
    | succ n =>
      have hc : getId c ≠ idv := by
        have h0 := hfirst 0 (Nat.succ_pos n)
        simpa using h0
      have hn : n < cs.length := by simpa using hi
      have hm2 : getId (cs.get ⟨n, hn⟩) = idv := by simpa using hmatch
      have hf2 : ∀ j (hj : j < n),
          getId (cs.get ⟨j, Nat.lt_trans hj hn⟩) ≠ idv := by
        intro j hj
        have hh := hfirst (j + 1) (Nat.succ_lt_succ hj)
        simpa using hh
      simp [updateById, hc, ih n hn hm2 hf2]

theorem deleteById_no_match {α : Type} (getId : α → Nat) (idv : Nat)
    (l : List α) (h : ∀ r ∈ l, getId r ≠ idv) :
    deleteById getId idv l = l := by
  induction l with
  | nil => rfl
  | cons c cs ih =>
    have hc := h c (List.mem_cons_self c cs)
    have hcs : ∀ r ∈ cs, getId r ≠ idv :=
      fun r hr => h r (List.mem_cons_of_mem c hr)
    simp [deleteById, hc, ih hcs]

theorem mem_of_mem_deleteById {α : Type} (getId : α → Nat) (idv : Nat)
    (l : List α) (r : α) (hr : r ∈ deleteById getId idv l) : r ∈ l := by
  induction l with
  | nil => simp [deleteById] at hr
  | cons c cs ih =>
    rw [deleteById] at hr
    by_cases hc : getId c = idv
    · simp only [hc, if_true] at hr
      exact List.mem_cons_of_mem c hr
    · simp only [hc, if_false, List.mem_cons] at hr
      rcases hr with hr | hr
      · exact hr ▸ List.mem_cons_self c cs
      · exact List.mem_cons_of_mem c (ih hr)

theorem deleteById_not_mem_of_nodup {α : Type} (getId : α → Nat) (idv : Nat)
    (l : List α) (hnd : (l.map getId).Nodup) :
    ∀ r ∈ deleteById getId idv l, getId r ≠ idv := by
  induction l with
  | nil => simp [deleteById]
  | cons c cs ih =>
    rw [List.map_cons, List.nodup_cons] at hnd
    intro r hr
    rw [deleteById] at hr
    by_cases hc : getId c = idv
    · simp only [hc, if_true] at hr
      intro hrid
      exact hnd.1 (hc ▸ hrid ▸ List.mem_map_of_mem getId hr)
    · simp only [hc, if_false, List.mem_cons] at hr
      rcases hr with hr | hr
      · exact hr ▸ hc
      · exact ih hnd.2 r hr

/-! ### Helper lemmas about the standings comparator -/

theorem ptsOptLe_trans (a b c : Option Int) (h1 : ptsOptLe a b = true)
    (h2 : ptsOptLe b c = true) : ptsOptLe a c = true := by
  cases a <;> cases b <;> cases c <;> (simp [ptsOptLe] at *; try omega)

theorem ptsOptLe_total (a b : Option Int) :
    (ptsOptLe a b || ptsOptLe b a) = true := by
  cases a <;> cases b <;> (simp [ptsOptLe]; try omega)

instance : IsTrans StandingRec standingGe :=
  ⟨fun a b c h1 h2 => ptsOptLe_trans c.points b.points a.points h2 h1⟩

instance : IsTotal StandingRec standingGe :=
  ⟨fun a b => by
    rcases Bool.or_eq_true_iff.mp (ptsOptLe_total b.points a.points) with h | h
    · exact Or.inl h
    · exact Or.inr h⟩

/-! ### The claims -/

/-- C6: `delete(id)` is idempotent: for every id, deleting it when no
record matches (including a second delete of an already-deleted id) still
responds with success status 204 and surfaces no error, and the store is
left unchanged by that call. (Each delete route responds 204
unconditionally; when no record matches, the collection is untouched; after
a first delete of `idv`, with the unique Mongo `_id`s, a second delete of
`idv` matches nothing and changes nothing.) -/
theorem claim_C6_delete_idempotent (idv : Nat) (db : DB)
    (hc : ∀ r ∈ db.clubs, r.id ≠ idv)
    (hp : ∀ r ∈ db.players, r.id ≠ idv)
    (hs : ∀ r ∈ db.standings, r.id ≠ idv) :
    deleteClubs idv db = (204, .emptyBody, db) ∧
    deletePlayers idv db = (204, .emptyBody, db) ∧
    deleteStandings idv db = (204, .emptyBody, db) ∧
    (∀ db2 : DB, (deleteClubs idv db2).1 = 204 ∧
      (deletePlayers idv db2).1 = 204 ∧ (deleteStandings idv db2).1 = 204) ∧
    (∀ db2 : DB, (db2.clubs.map ClubRec.id).Nodup →
      deleteClubs idv (deleteClubs idv db2).2.2
        = (204, .emptyBody, (deleteClubs idv db2).2.2)) := by
  refine ⟨?_, ?_, ?_, fun db2 => ⟨rfl, rfl, rfl⟩, ?_⟩
  · simp [deleteClubs, deleteById_no_match ClubRec.id idv db.clubs hc]
  · simp [deletePlayers, deleteById_no_match PlayerRec.id idv db.players hp]
  · simp [deleteStandings,
      deleteById_no_match StandingRec.id idv db.standings hs]
  · intro db2 hnd
    have h2 := deleteById_not_mem_of_nodup ClubRec.id idv db2.clubs hnd
    simp [deleteClubs,
      deleteById_no_match ClubRec.id idv (deleteById ClubRec.id idv db2.clubs) h2]

/-- C6 witness: deleting id 3 from a store whose only club has id 1
responds 204 and leaves the store unchanged. -/
theorem claim_C6_delete_idempotent_witness :
    deleteClubs 3 ⟨[⟨1, some "Red FC", none, none, none⟩], [], [], []⟩
      = (204, .emptyBody, ⟨[⟨1, some "Red FC", none, none, none⟩], [], [], []⟩) :=
  (claim_C6_delete_idempotent 3
    ⟨[⟨1, some "Red FC", none, none, none⟩], [], [], []⟩
    (by decide) (by decide) (by decide)).1

/-- C7: for every id that matches no stored record, an authenticated
`update(id, payload)` returns a null/success response (status 200 with
null body) rather than a 404, and leaves the store unchanged — for the
clubs route and the mirrored players and standings routes. -/
theorem claim_C7_update_missing_null (idv : Nat) (pc : ClubPayload)
    (pp : PlayerPayload) (ps : StandingPayload) (db : DB)
    (hc : ∀ r ∈ db.clubs, r.id ≠ idv)
    (hp : ∀ r ∈ db.players, r.id ≠ idv)
    (hs : ∀ r ∈ db.standings, r.id ≠ idv) :
    putClubs idv pc db = (200, .clubBody none, db) ∧
    putPlayers idv pp db = (200, .playerBody none, db) ∧
    putStandings idv ps db = (200, .standingBody none, db) := by
  refine ⟨?_, ?_, ?_⟩
  · simp [putClubs,
      updateById_no_match ClubRec.id (applyClubUpdate pc) idv db.clubs hc]
  · simp [putPlayers,
      updateById_no_match PlayerRec.id (applyPlayerUpdate pp) idv db.players hp]
  · simp [putStandings,
      updateById_no_match StandingRec.id (applyStandingUpdate ps) idv
        db.standings hs]

/-- C7 witness: updating id 3 in a store whose only club has id 1 responds
200 with a null body and leaves the store unchanged. -/
theorem claim_C7_update_missing_null_witness :
    putClubs 3 ⟨some "Blue FC", none, none, none⟩
      ⟨[⟨1, some "Red FC", none, none, none⟩], [], [], []⟩
      = (200, .clubBody none,
        ⟨[⟨1, some "Red FC", none, none, none⟩], [], [], []⟩) :=
  (claim_C7_update_missing_null 3 ⟨some "Blue FC", none, none, none⟩
    ⟨none, none, none⟩ ⟨none, none, none, none, none, none, none, none, none⟩
    ⟨[⟨1, some "Red FC", none, none, none⟩], [], [], []⟩
    (by decide) (by decide) (by decide)).1

/-- C8: `register(email, password)` stores the email together with a
salted slow one-way hash of the password (never the plaintext) and
responds with status 201; it performs no check for an existing account
with the same email, so for every already-registered email a second
registration also succeeds and produces a second independent account with
that email (the count of accounts carrying the email always grows by
one). -/
theorem claim_C8_register_no_dup_check (salt freshId : Nat)
    (email pw : Str) (db : DB) :
    (registerUser salt freshId email pw db).1 = 201 ∧
    (registerUser salt freshId email pw db).2.users
      = db.users ++ [⟨freshId, email, bcryptHash salt pw⟩] ∧
    bcryptHash salt pw ≠ pw ∧
    bcryptCompare pw (bcryptHash salt pw) = true ∧
    (registerUser salt freshId email pw db).2.clubs = db.clubs ∧
    (registerUser salt freshId email pw db).2.players = db.players ∧
    (registerUser salt freshId email pw db).2.standings = db.standings ∧
    (registerUser salt freshId email pw db).2.users.countP
        (fun u => u.email == email)
      = db.users.countP (fun u => u.email == email) + 1 := by
  refine ⟨rfl, rfl, bcryptHash_ne_pw salt pw, bcryptCompare_hash salt pw,
    rfl, rfl, rfl, ?_⟩
  simp [registerUser, List.countP_append, List.countP_cons]

/-- C9: in every response of `GET /api/standings`, the `logo` field of
every returned row is the empty string, for every state of the standings
store: the Standing schema has no `logo` field, so `row.logo || ''` is
always `''`. -/
theorem claim_C9_logo_always_empty (hdr : Option Str) (db : DB) :
    ∀ row ∈ (getStandings hdr db).2, row.logo = "" := by
  intro row hrow
  rcases List.mem_map.mp hrow with ⟨r, _, rfl⟩
  rfl

/-- C9 witness: on a one-row store the returned row's logo is `""`. -/
theorem claim_C9_logo_always_empty_witness :
    ((getStandings none
      ⟨[], [],
        [⟨1, some "Red FC", some 9, some 4, some 3, some 0, some 1, some 8,
          some 3, some 5⟩], []⟩).2.get ⟨0, by decide⟩).logo = "" :=
  claim_C9_logo_always_empty none
    ⟨[], [],
      [⟨1, some "Red FC", some 9, some 4, some 3, some 0, some 1, some 8,
        some 3, some 5⟩], []⟩
    _ (List.get_mem _ _ _)

/-- C4: for every state of the standings store, `GET /api/standings`
returns the rows ordered by points descending (for all adjacent rows,
`rows[i].pts >= rows[i+1].pts`, with a missing points value ordered last)
and with each row reshaped to exactly the display fields club, logo, p, w,
d, l, gf, ga, gd, pts, where p/w/d/l/pts carry the stored
played/won/drawn/lost/points values. -/
theorem claim_C4_standings_sorted_reshaped (hdr : Option Str) (db : DB) :
    (getStandings hdr db).1 = 200 ∧
    (∀ i (hi : i + 1 < (getStandings hdr db).2.length),
      ptsOptLe ((getStandings hdr db).2.get ⟨i + 1, hi⟩).pts
        ((getStandings hdr db).2.get ⟨i, Nat.lt_of_succ_lt hi⟩).pts = true) ∧
    (∀ row ∈ (getStandings hdr db).2, ∃ r ∈ db.standings,
      row.club = r.club ∧ row.logo = "" ∧ row.p = r.played ∧ row.w = r.won ∧
      row.d = r.drawn ∧ row.l = r.lost ∧ row.gf = r.gf ∧ row.ga = r.ga ∧
      row.gd = r.gd ∧ row.pts = r.points) ∧
    (getStandings hdr db).2.length = db.standings.length := by
  refine ⟨rfl, ?_, ?_, ?_⟩
  · intro i hi
    have hs : List.Sorted standingGe (db.standings.insertionSort standingGe) :=
      List.sorted_insertionSort standingGe db.standings
    have hp := List.pairwise_iff_get.mp hs
    have hlen : (getStandings hdr db).2.length
        = (db.standings.insertionSort standingGe).length := by
      simp [getStandings]
    have hi1 : i + 1 < (db.standings.insertionSort standingGe).length :=
      hlen ▸ hi
    have hi0 : i < (db.standings.insertionSort standingGe).length :=
      Nat.lt_of_succ_lt hi1
    have hg := hp ⟨i, hi0⟩ ⟨i + 1, hi1⟩ (by exact Nat.lt_succ_self i)
    have e1 : (getStandings hdr db).2.get ⟨i + 1, hi⟩
        = mapStandingRow ((db.standings.insertionSort standingGe).get
            ⟨i + 1, hi1⟩) := by
      simp [getStandings, List.get_eq_getElem, List.getElem_map]
    have e0 : (getStandings hdr db).2.get ⟨i, Nat.lt_of_succ_lt hi⟩
        = mapStandingRow ((db.standings.insertionSort standingGe).get
            ⟨i, hi0⟩) := by
      simp [getStandings, List.get_eq_getElem, List.getElem_map]
    rw [e1, e0]
    exact hg
  · intro row hrow
    simp only [getStandings] at hrow
    rcases List.mem_map.mp hrow with ⟨r, hr, rfl⟩
    refine ⟨r, ?_, rfl, rfl, rfl, rfl, rfl, rfl, rfl, rfl, rfl, rfl⟩
    exact (List.perm_insertionSort standingGe db.standings).mem_iff.mp hr
  · simp [getStandings]

/-- C4 witness: on a two-row store with 5 and 9 points, the response is 200,
the row with 9 points comes first, and there are two rows. -/
theorem claim_C4_standings_sorted_reshaped_witness :
    (getStandings none
      ⟨[], [],
        [⟨1, some "A", some 5, some 4, some 1, some 2, some 1, some 3, some 4,
          some (-1)⟩,
         ⟨2, some "B", some 9, some 4, some 3, some 0, some 1, some 8, some 3,
          some 5⟩], []⟩).1 = 200 ∧
    ptsOptLe ((getStandings none
      ⟨[], [],
        [⟨1, some "A", some 5, some 4, some 1, some 2, some 1, some 3, some 4,
          some (-1)⟩,
         ⟨2, some "B", some 9, some 4, some 3, some 0, some 1, some 8, some 3,
          some 5⟩], []⟩).2.get ⟨1, by decide⟩).pts
      ((getStandings none
      ⟨[], [],
        [⟨1, some "A", some 5, some 4, some 1, some 2, some 1, some 3, some 4,
          some (-1)⟩,
         ⟨2, some "B", some 9, some 4, some 3, some 0, some 1, some 8, some 3,
          some 5⟩], []⟩).2.get ⟨0, by decide⟩).pts = true :=
  ⟨(claim_C4_standings_sorted_reshaped none _).1,
   (claim_C4_standings_sorted_reshaped none _).2.1 0 (by decide)⟩

/-- C5: for every existing record and every partial payload,
`update(id, payload)` on an authenticated request changes only the fields
present in the payload on the record matching id (the first match; Mongo
`_id`s are unique), leaves every field absent from the payload at its
prior value, leaves all other records (and the other collections)
unchanged, and returns the updated record with status 200. -/
theorem claim_C5_update_changes_only_payload_fields (idv : Nat)
    (p : ClubPayload) (db : DB) (i : Nat) (hi : i < db.clubs.length)
    (hmatch : (db.clubs.get ⟨i, hi⟩).id = idv)
    (hfirst : ∀ j (hj : j < i),
      (db.clubs.get ⟨j, Nat.lt_trans hj hi⟩).id ≠ idv) :
    (putClubs idv p db).1 = 200 ∧
    (putClubs idv p db).2.1
      = .clubBody (some (applyClubUpdate p (db.clubs.get ⟨i, hi⟩))) ∧
    (putClubs idv p db).2.2.clubs
      = db.clubs.set i (applyClubUpdate p (db.clubs.get ⟨i, hi⟩)) ∧
    (∀ j, j ≠ i → (putClubs idv p db).2.2.clubs[j]? = db.clubs[j]?) ∧
    (putClubs idv p db).2.2.players = db.players ∧
    (putClubs idv p db).2.2.standings = db.standings ∧
    (putClubs idv p db).2.2.users = db.users ∧
    (∀ c : ClubRec,
      (applyClubUpdate p c).id = c.id ∧
      (∀ v, p.name = some v → (applyClubUpdate p c).name = some v) ∧
      (p.name = none → (applyClubUpdate p c).name = c.name) ∧
      (∀ v, p.logo = some v → (applyClubUpdate p c).logo = some v) ∧
      (p.logo = none → (applyClubUpdate p c).logo = c.logo) ∧
      (∀ v, p.description = some v →
        (applyClubUpdate p c).description = some v) ∧
      (p.description = none →
        (applyClubUpdate p c).description = c.description) ∧
      (∀ v, p.stats = some v → (applyClubUpdate p c).stats = some v) ∧
      (p.stats = none → (applyClubUpdate p c).stats = c.stats)) := by
  have hu := updateById_first_match ClubRec.id (applyClubUpdate p) idv
    db.clubs i hi hmatch hfirst
  refine ⟨rfl, ?_, ?_, ?_, rfl, rfl, rfl, ?_⟩
  · simp [putClubs, hu]
  · simp [putClubs, hu]
  · intro j hj
    have hcl : (putClubs idv p db).2.2.clubs
        = db.clubs.set i (applyClubUpdate p (db.clubs.get ⟨i, hi⟩)) := by
      simp [putClubs, hu]
    rw [hcl]
    exact List.getElem?_set_ne (fun h => hj h.symm)
  · intro c
    refine ⟨rfl, ?_, ?_, ?_, ?_, ?_, ?_, ?_, ?_⟩ <;>
      first
        | (intro v hv; simp [applyClubUpdate, setField, hv])
        | (intro hv; simp [applyClubUpdate, setField, hv])

/-- C5 witness: updating club id 7 (second of two records) with a payload
that only sets `name` responds 200 and replaces exactly that record, the
untouched fields keeping their values. -/
theorem claim_C5_update_changes_only_payload_fields_witness :
    (putClubs 7 ⟨some "C", none, none, none⟩
      ⟨[⟨5, some "A", none, none, none⟩, ⟨7, some "B", some "L", none, none⟩],
        [], [], []⟩).1 = 200 ∧
    (putClubs 7 ⟨some "C", none, none, none⟩
      ⟨[⟨5, some "A", none, none, none⟩, ⟨7, some "B", some "L", none, none⟩],
        [], [], []⟩).2.2.clubs
      = [⟨5, some "A", none, none, none⟩, ⟨7, some "C", some "L", none, none⟩] := by
  have h := claim_C5_update_changes_only_payload_fields 7
    ⟨some "C", none, none, none⟩
    ⟨[⟨5, some "A", none, none, none⟩, ⟨7, some "B", some "L", none, none⟩],
      [], [], []⟩
    1 (by decide) (by decide) (by decide)
  exact ⟨h.1, by rw [h.2.2.1]; decide⟩

/-- C1: for every mutating resource route (POST/PUT/DELETE on clubs,
players and standings), the handler runs token verification before the
resource operation: a request carrying no token (no Authorization header,
or a header from which no token can be extracted) gets status 401 and the
store is not modified; a request whose token `jwt.verify` rejects
(malformed, wrongly signed, or expired) gets status 403 and the store is
not modified; the GET list routes require no token and answer 200 for any
header. -/
theorem claim_C1_auth_gates_mutations (secret : Str) (now : Nat)
    (route : MutRoute) (db : DB) :
    ((mutPipeline secret now none route db).status = 401 ∧
      (mutPipeline secret now none route db).db = db) ∧
    (∀ h : Str, (splitOnChar ' ' h)[1]? = none →
      (mutPipeline secret now (some h) route db).status = 401 ∧
      (mutPipeline secret now (some h) route db).db = db) ∧
    (∀ (h t : Str) (e : VerifyErr),
      (splitOnChar ' ' h)[1]? = some t → t ≠ [] →
      jwtVerify secret now t = .error e →
      (mutPipeline secret now (some h) route db).status = 403 ∧
      (mutPipeline secret now (some h) route db).db = db) ∧
    (∀ hdr : Option Str, getClubs hdr db = (200, db.clubs) ∧
      getPlayers hdr db = (200, db.players) ∧
      (getStandings hdr db).1 = 200) := by
  refine ⟨⟨rfl, rfl⟩, ?_, ?_, fun hdr => ⟨rfl, rfl, rfl⟩⟩
  · intro h hsplit
    constructor <;> simp [mutPipeline, authenticateToken, hsplit]
  · intro h t e hsplit htne hverify
    constructor <;> simp [mutPipeline, authenticateToken, hsplit, htne, hverify]

/-- C1 witness: with an empty store and secret `"k"`, a DELETE with no
header gets 401; with header `"x"` (no extractable token) 401; with header
`"B x"` (garbage token) 403 and an unchanged store. -/
theorem claim_C1_auth_gates_mutations_witness :
    (mutPipeline ['k'] 0 none (.deleteClubsR 0) ⟨[], [], [], []⟩).status
      = 401 ∧
    (mutPipeline ['k'] 0 (some ['x']) (.deleteClubsR 0)
      ⟨[], [], [], []⟩).status = 401 ∧
    (mutPipeline ['k'] 0 (some ['B', ' ', 'x']) (.deleteClubsR 0)
      ⟨[], [], [], []⟩).status = 403 ∧
    (mutPipeline ['k'] 0 (some ['B', ' ', 'x']) (.deleteClubsR 0)
      ⟨[], [], [], []⟩).db = ⟨[], [], [], []⟩ :=
  ⟨(claim_C1_auth_gates_mutations ['k'] 0 (.deleteClubsR 0)
      ⟨[], [], [], []⟩).1.1,
   ((claim_C1_auth_gates_mutations ['k'] 0 (.deleteClubsR 0)
      ⟨[], [], [], []⟩).2.1 ['x'] (by decide)).1,
   ((claim_C1_auth_gates_mutations ['k'] 0 (.deleteClubsR 0)
      ⟨[], [], [], []⟩).2.2.1 ['B', ' ', 'x'] ['x'] .malformed
      (by decide) (by decide) (by decide)).1,
   ((claim_C1_auth_gates_mutations ['k'] 0 (.deleteClubsR 0)
      ⟨[], [], [], []⟩).2.2.1 ['B', ' ', 'x'] ['x'] .malformed
      (by decide) (by decide) (by decide)).2⟩

/-- C2 counterexample: a POST /api/clubs request with a JSON body and no
Authorization header is rejected with 401, yet its body has already been
consumed — `app.use(express.json())` is registered before every route, so
the body parser runs before `authenticateToken`. This refutes the claim
that no part of the request body has been consumed on a rejected
request. -/
theorem claim_C2_counterexample :
    (mutPipeline ['k'] 0 none
      (.postClubsR ⟨some "Red FC", none, none, none⟩ 1)
      ⟨[], [], [], []⟩).status = 401 ∧
    (mutPipeline ['k'] 0 none
      (.postClubsR ⟨some "Red FC", none, none, none⟩ 1)
      ⟨[], [], [], []⟩).bodyConsumed = true :=
  ⟨rfl, rfl⟩

/-- C2 amended: on every request to a mutating resource route the global
`express.json()` middleware parses (consumes) the request body before
authentication runs, so even requests rejected with 401 or 403 have had
their body consumed; the resource handler itself runs only after
authentication succeeds, so a rejected request leaves the store unmodified
and produces no resource response body. -/
theorem claim_C2_amended_body_parsed_before_auth (secret : Str) (now : Nat)
    (hdr : Option Str) (route : MutRoute) (db : DB) :
    (mutPipeline secret now hdr route db).bodyConsumed = true ∧
    (∀ s, authenticateToken secret now hdr = .fail s →
      (mutPipeline secret now hdr route db).status = s ∧
      (mutPipeline secret now hdr route db).db = db ∧
      (mutPipeline secret now hdr route db).body = .emptyBody) := by
  constructor
  · rcases ha : authenticateToken secret now hdr with s | u <;>
      simp [mutPipeline, ha]
  · intro s hs
    refine ⟨?_, ?_, ?_⟩ <;> simp [mutPipeline, hs]

/-- C2 amended witness: the concrete rejected request of the
counterexample has a consumed body, status 401 and an untouched store. -/
theorem claim_C2_amended_body_parsed_before_auth_witness :
    (mutPipeline ['k'] 0 none
      (.postClubsR ⟨some "Red FC", none, none, none⟩ 1)
      ⟨[], [], [], []⟩).bodyConsumed = true ∧
    (mutPipeline ['k'] 0 none
      (.postClubsR ⟨some "Red FC", none, none, none⟩ 1)
      ⟨[], [], [], []⟩).status = 401 :=
  ⟨(claim_C2_amended_body_parsed_before_auth ['k'] 0 none
      (.postClubsR ⟨some "Red FC", none, none, none⟩ 1) ⟨[], [], [], []⟩).1,
   ((claim_C2_amended_body_parsed_before_auth ['k'] 0 none
      (.postClubsR ⟨some "Red FC", none, none, none⟩ 1) ⟨[], [], [], []⟩).2
      401 (by decide)).1⟩

/-- C10: token extraction from the Authorization header does not check the
authentication scheme: for every valid token `t` and every scheme word `s`
(not only "Bearer"; any word without a space, even empty), a request with
header `s ++ " " ++ t` passes authentication, while a header consisting of
a single word with no space (e.g. the bare token) is treated as a missing
token and rejected with 401. -/
theorem claim_C10_scheme_not_checked (secret : Str) (now : Nat) (s t : Str)
    (u : TokenClaims) (hs : ' ' ∉ s) (ht : ' ' ∉ t)
    (hv : jwtVerify secret now t = .ok u) :
    authenticateToken secret now (some (s ++ ' ' :: t)) = .ok u ∧
    (∀ w : Str, ' ' ∉ w → authenticateToken secret now (some w) = .fail 401) := by
  constructor
  · have hsplit : splitOnChar ' ' (s ++ ' ' :: t) = s :: splitOnChar ' ' t :=
      splitOnChar_append ' ' s t hs
    have htl : splitOnChar ' ' t = [t] := splitOnChar_not_mem ' ' t ht
    have hget : (splitOnChar ' ' (s ++ ' ' :: t))[1]? = some t := by
      rw [hsplit, htl]
      rfl
    have htne : t ≠ [] := by
      intro h0
      rw [h0] at hv
      simp [jwtVerify, decodeJwt, takeUntil] at hv
    simp [authenticateToken, hget, htne, hv]
  · intro w hw
    have hw1 : splitOnChar ' ' w = [w] := splitOnChar_not_mem ' ' w hw
    simp [authenticateToken, hw1]

/-- C10 witness: a token signed with the server secret passes with the
scheme word "Tok" instead of "Bearer", and the same token sent bare (no
scheme, no space) is rejected with 401. -/
theorem claim_C10_scheme_not_checked_witness :
    authenticateToken ['k'] 0
      (some (['T', 'o', 'k'] ++ ' ' :: jwtSign ['k'] ['a'] 3 0))
      = .ok ⟨['a'], 3, 0, 86400⟩ ∧
    authenticateToken ['k'] 0 (some (jwtSign ['k'] ['a'] 3 0)) = .fail 401 :=
  ⟨(claim_C10_scheme_not_checked ['k'] 0 ['T', 'o', 'k']
      (jwtSign ['k'] ['a'] 3 0) ⟨['a'], 3, 0, 86400⟩
      (by decide) (by decide) (by decide)).1,
   (claim_C10_scheme_not_checked ['k'] 0 ['T', 'o', 'k']
      (jwtSign ['k'] ['a'] 3 0) ⟨['a'], 3, 0, 86400⟩
      (by decide) (by decide) (by decide)).2
      (jwtSign ['k'] ['a'] 3 0) (by decide)⟩

/-- C3 counterexample: registrations do not check for an existing email and
`login` authenticates against the FIRST stored account for the email
(`User.findOne`). With `register(e, "a")` followed by `register(e, "b")`,
the second user was created by register, yet `login(e, "b")` — same email,
correct password for that account — compares "b" against the first
account's hash of "a" and answers 400 with no token. This refutes the
claim for every user created by register. -/
theorem claim_C3_counterexample :
    loginUser ['k'] 0 ['e'] ['b']
      ((registerUser 2 11 ['e'] ['b']
        ((registerUser 1 10 ['e'] ['a'] ⟨[], [], [], []⟩).2)).2)
      = (400, none) := by decide

/-- C3 amended: for every user created by `register(email, password)`
PROVIDED no account with that email was registered earlier (login
authenticates against the first stored account with the email), a
subsequent login with the same email and correct password returns status
200 with the signed token embedding {email, id, iat, exp = iat + 24h}, and
`verify` accepts that token with those claims at any time strictly before
24 hours have elapsed since issuance and rejects it as expired at any time
from 24 hours on. -/
theorem claim_C3_amended_register_login_verify (secret : Str)
    (salt freshId : Nat) (email pw : Str) (db : DB)
    (tLogin tEarly tLate : Nat)
    (hnl : '\n' ∉ email)
    (hfresh : ∀ u ∈ db.users, u.email ≠ email)
    (hEarly : tEarly < tLogin + 86400)
    (hLate : tLogin + 86400 ≤ tLate) :
    loginUser secret tLogin email pw (registerUser salt freshId email pw db).2
      = (200, some (jwtSign secret email freshId tLogin)) ∧
    jwtVerify secret tEarly (jwtSign secret email freshId tLogin)
      = .ok ⟨email, freshId, tLogin, tLogin + 86400⟩ ∧
    jwtVerify secret tLate (jwtSign secret email freshId tLogin)
      = .error .expired := by
  have hnone : db.users.find? (fun u => u.email == email) = none := by
    rw [List.find?_eq_none]
    intro u hu
    simpa using hfresh u hu
  have hfind : ((registerUser salt freshId email pw db).2.users).find?
      (fun u => u.email == email)
      = some ⟨freshId, email, bcryptHash salt pw⟩ := by
    have husers : (registerUser salt freshId email pw db).2.users
        = db.users ++ [(⟨freshId, email, bcryptHash salt pw⟩ : UserRec)] := rfl
    rw [husers, List.find?_append, hnone]
    simp [List.find?]
  have hok : jwtVerify secret tEarly (jwtSign secret email freshId tLogin)
      = .ok ⟨email, freshId, tLogin, tLogin + 86400⟩ := by
    rw [jwtSign, jwtVerify_encodeJwt secret ⟨email, freshId, tLogin,
      tLogin + 86400⟩ tEarly hnl]
    simp [hEarly]
  have hexp : jwtVerify secret tLate (jwtSign secret email freshId tLogin)
      = .error .expired := by
    rw [jwtSign, jwtVerify_encodeJwt secret ⟨email, freshId, tLogin,
      tLogin + 86400⟩ tLate hnl]
    have hnlt : ¬tLate < tLogin + 86400 := by omega
    simp [hnlt]
  refine ⟨?_, hok, hexp⟩
  simp [loginUser, hfind, bcryptCompare_hash salt pw, jwtSign]

/-- C3 amended witness: registering `"a"` with password `"b"` into an empty
store, logging in at time 5 yields the signed token; verify accepts it at
time 6 and rejects it as expired at time 86405 = 5 + 86400. -/
theorem claim_C3_amended_register_login_verify_witness :
    loginUser ['k'] 5 ['a'] ['b']
        (registerUser 3 7 ['a'] ['b'] ⟨[], [], [], []⟩).2
      = (200, some (jwtSign ['k'] ['a'] 7 5)) ∧
    jwtVerify ['k'] 6 (jwtSign ['k'] ['a'] 7 5)
      = .ok ⟨['a'], 7, 5, 5 + 86400⟩ ∧
    jwtVerify ['k'] 86405 (jwtSign ['k'] ['a'] 7 5)
      = .error .expired :=
  claim_C3_amended_register_login_verify ['k'] 3 7 ['a'] ['b']
    ⟨[], [], [], []⟩ 5 6 86405
    (by decide) (by decide) (by decide) (by decide)

end ProClubs
